import Mathlib

/-!
Verification development for the `vo_perf` driver (`src/apps/vo_perf.cc`) of
the bpvo visual-odometry repository, against its design specification.

The driver's main loop is embedded shallowly: machine `int` values are `ℤ`,
timer readings are `ℚ`, the dataset, the key polling, the per-frame results
of `addFrame` and the per-frame timer readings are abstracted as functions of
the frame index (the engine is stateful, but its i-th return value is a
function of i, which is all the driver observes).  Parts of the engine that
are not under `src/` (the optimizer's iteration loop, the statistics
assembly, the keyframe selector, the trajectory container) are modelled from
the spec, each marked so in its doc comment.
-/

namespace VoPerf

/-- Per-level optimizer statistics as consumed by the driver
(`result.optimizerStatistics[maxTestLevel].numIterations`, vo_perf.cc:97)
together with the `converged` flag and final cost described by the spec
(§3 OptimizerStatistics: iterations performed, final residual/cost,
converged flag). -/
structure OptStats where
  numIterations : ℤ
  finalCost : ℚ
  converged : Bool
  deriving DecidableEq

instance : Inhabited OptStats := ⟨⟨0, 0, false⟩⟩

/-- Closed enumeration of keyframing reasons (spec §4.3); the driver only
converts the value to a string for display (vo_perf.cc:105). -/
inductive KeyframingReason where
  | KeepOldKeyframe
  | MaxTranslation
  | MaxRotation
  | LowTrackingQuality
  | MaxIterationsAtFinestLevel
  deriving DecidableEq

/-- Output record of one `addFrame` call, as used by the driver
(vo_perf.cc:93, 97, 105, 108) and the spec's output contract (§6). -/
structure Result (P : Type) where
  pose : P
  optimizerStatistics : List OptStats
  keyFramingReason : KeyframingReason

/-- Inputs of one run of the driver's main loop (vo_perf.cc:46-111):
`maxFrames` is the `numframes` option (a negative value makes the C loop run
zero times, so it is taken as a natural number), `hasFrame i` is whether
`dataset->getFrame(i)` returns a frame, `doShow` is the absence of the
`dontshow` option, `quitAt i` is whether `waitKey` returns the key q while
frame i is shown, `result i` is what `vo.addFrame` returns on its i-th call,
`elapsed i` the timer reading for that call, and `maxTestLevel`,
`maxIterations` come from `AlgorithmParameters`. -/
structure RunInput (P : Type) where
  maxFrames : ℕ
  hasFrame : ℕ → Bool
  doShow : Bool
  quitAt : ℕ → Bool
  result : ℕ → Result P
  elapsed : ℕ → ℚ
  maxTestLevel : ℕ
  maxIterations : ℤ

/-- State accumulated by the driver's main loop.  The `trajectory` field is
modelled from the spec: the `Trajectory` container (`bpvo/trajectory.h`) is
not under `src/`; per spec §3 it is an append-only ordered sequence of world
poses, one per processed frame, so `push_back` is list append of the frame's
world pose.  `console` holds one entry per progress line printed at
vo_perf.cc:103-105: displayed frame index, frame time, displayed frame rate,
iteration count, keyframing reason. -/
structure RunState (P : Type) where
  trajectory : List P
  iterations : List ℤ
  time_ms : List ℚ
  totalTime : ℚ
  warnedFrames : List ℕ
  console : List (ℤ × ℚ × ℚ × ℤ × KeyframingReason)

/-- The unchecked access `result.optimizerStatistics[maxTestLevel]`
(vo_perf.cc:97); `operator[]` performs no bounds check, so the model reads
with a default that is never used when the index is in bounds. -/
def numItersAt {P : Type} (inp : RunInput P) (i : ℕ) : ℤ :=
  ((inp.result i).optimizerStatistics.getD inp.maxTestLevel default).numIterations

/-- One iteration of the main loop body after the frame was obtained and not
quit upon (vo_perf.cc:92-110): time the `addFrame` call, accumulate
`total_time`, test the warning condition, print the progress line, and push
pose, time and iteration count. -/
def step {P : Type} (inp : RunInput P) (i : ℕ) (s : RunState P) : RunState P :=
  let tt := inp.elapsed i
  let T := s.totalTime + tt / 1000
  let n := numItersAt inp i
  { trajectory := s.trajectory ++ [(inp.result i).pose]
    iterations := s.iterations ++ [n]
    time_ms := s.time_ms ++ [tt]
    totalTime := T
    warnedFrames := if n = inp.maxIterations then s.warnedFrames ++ [i] else s.warnedFrames
    console := s.console ++ [((i : ℤ) - 1, tt, ((i : ℚ) - 1) / T, n,
      (inp.result i).keyFramingReason)] }

/-- Whether the loop breaks before processing frame i: the dataset yields no
frame (vo_perf.cc:80-83), or the image is shown and the user presses q
(vo_perf.cc:85-90). -/
def stopsAt {P : Type} (inp : RunInput P) (i : ℕ) : Bool :=
  !inp.hasFrame i || (inp.doShow && inp.quitAt i)

/-- The main loop `for(f_i = 0; f_i < max_frames; ++f_i)` (vo_perf.cc:77-111),
with the remaining iteration budget as fuel. -/
def go {P : Type} (inp : RunInput P) : ℕ → ℕ → RunState P → RunState P
  | 0, _, s => s
  | fuel + 1, i, s => if stopsAt inp i then s else go inp fuel (i + 1) (step inp i s)

/-- The state before the loop (vo_perf.cc:66-75). -/
def initState (P : Type) : RunState P := ⟨[], [], [], 0, [], []⟩

/-- The whole main loop of the driver. -/
def run {P : Type} (inp : RunInput P) : RunState P :=
  go inp inp.maxFrames 0 (initState P)

/-- Number of loop iterations that reach the loop body when the loop starts
at frame index i with the given fuel. -/
def procCount {P : Type} (inp : RunInput P) : ℕ → ℕ → ℕ
  | 0, _ => 0
  | fuel + 1, i => if stopsAt inp i then 0 else procCount inp fuel (i + 1) + 1

/-- Number of frames processed by the run: each one is one `addFrame` call. -/
def processed {P : Type} (inp : RunInput P) : ℕ :=
  procCount inp inp.maxFrames 0

/-- Accumulated `total_time` contribution of frames i, i+1, ..., i+n-1
(vo_perf.cc:95 adds `tt / 1000.0` per frame). -/
def timeSum {P : Type} (inp : RunInput P) (i n : ℕ) : ℚ :=
  ((List.range' i n).map (fun k => inp.elapsed k / 1000)).sum

/-- The default of the `numframes` option (vo_perf.cc:52). -/
def defaultNumFrames : ℕ := 1000

theorem timeSum_zero {P : Type} (inp : RunInput P) (i : ℕ) : timeSum inp i 0 = 0 := by
  simp [timeSum]

theorem timeSum_succ {P : Type} (inp : RunInput P) (i n : ℕ) :
    timeSum inp i (n + 1) = inp.elapsed i / 1000 + timeSum inp (i + 1) n := by
  simp [timeSum, List.range'_succ]

/-- Modelled from the spec: the Pose Optimizer's per-level iteration loop is
not under `src/`.  Per §4.2 step 5 the loop terminates at the first iteration
where a convergence criterion (parameter-update norm or relative cost
decrease below threshold) holds, or when the iteration cap is reached,
whichever first; termination by the cap is recorded as iteration-cap
termination, i.e. non-convergence (§7 NumericalNonConvergence, §8 property
3).  `crit k` abstracts whether a convergence criterion holds after the k-th
iteration; the first numeric argument is the remaining iteration budget, the
second the number of iterations performed so far. -/
def optIter (crit : ℕ → Bool) : ℕ → ℕ → ℕ × Bool
  | 0, k => (k, false)
  | 1, k => (k + 1, false)
  | fuel + 2, k =>
      if crit (k + 1) then (k + 1, true) else optIter crit (fuel + 1) (k + 1)

/-- Modelled from the spec: one level's optimization (§4.2) runs the
iteration loop with the configured cap and records iterations performed,
final cost and the converged flag in the level's statistics. -/
def optimizeLevel (maxIterations : ℕ) (crit : ℕ → Bool) (cost : ℚ) : OptStats :=
  let r := optIter crit maxIterations 0
  ⟨(r.1 : ℤ), cost, r.2⟩

theorem optIter_converged_lt (crit : ℕ → Bool) :
    ∀ fuel k : ℕ, (optIter crit fuel k).2 = true → (optIter crit fuel k).1 < k + fuel := by
  intro fuel
  induction fuel using Nat.strong_induction_on with
  | _ fuel ih =>
    intro k h
    rcases fuel with _ | _ | fuel
    · simp [optIter] at h
    · simp [optIter] at h
    · by_cases hc : crit (k + 1)
      · simp [optIter, hc]
      · have hval : optIter crit (fuel + 2) k = optIter crit (fuel + 1) (k + 1) := by
          simp [optIter, hc]
        rw [hval] at h ⊢
        have := ih (fuel + 1) (by omega) (k + 1) h
        omega

/-- Modelled from the spec: the Odometry Controller's assembly of the Result
is not under `src/`; per §3 and §6 it collects one OptimizerStatistics per
pyramid level, so the statistics sequence tabulates the per-level statistics
over the configured number of levels. -/
def mkOptimizerStatistics (levels : ℕ) (statAt : ℕ → OptStats) : List OptStats :=
  (List.range levels).map statAt

/-- Modelled from the spec: the Keyframe Selector (§4.3) is not under
`src/`.  Its decision evaluates the keyframing conditions (abstracted as
booleans) in a fixed priority order and returns the first reason that fires,
or `KeepOldKeyframe` when none does. -/
def decideKeyframing (maxTranslation maxRotation lowQuality maxItersAtFinest : Bool) :
    KeyframingReason :=
  if maxTranslation then KeyframingReason.MaxTranslation
  else if maxRotation then KeyframingReason.MaxRotation
  else if lowQuality then KeyframingReason.LowTrackingQuality
  else if maxItersAtFinest then KeyframingReason.MaxIterationsAtFinestLevel
  else KeyframingReason.KeepOldKeyframe

/-- Modelled from the spec: keyframe replacement (§4.3) — when a reason
other than `KeepOldKeyframe` fires, the current frame is promoted to the new
keyframe; otherwise the active keyframe reference is unchanged. -/
def updateKeyframe {K : Type} (current active : K) (r : KeyframingReason) : K :=
  if r = KeyframingReason.KeepOldKeyframe then active else current

/-- Contents of the result files written when the output prefix is non-empty
(vo_perf.cc:116-148).  Each list element is one line of the file. -/
structure OutputFiles where
  cameraPath : String
  posesLines : List String
  iterationLines : List String
  timeLines : List String
  deriving DecidableEq

/-- The output stage (vo_perf.cc:116-148): nothing is written when the
output prefix is empty; otherwise the camera-path file (written by
`Trajectory::writeCameraPath`, whose serialization is abstracted by
`encCamPath`), one line per trajectory entry encoded by `encPose`
(vo_perf.cc:122-126), one line per iteration count encoded by `encInt`
(vo_perf.cc:132-137), and one line per frame time encoded by `encTime`
(vo_perf.cc:141-146). -/
def writeOutputs {P : Type} (encCamPath : List P → String) (encPose : P → String)
    (encInt : ℤ → String) (encTime : ℚ → String) (ofn : String) (s : RunState P) :
    Option OutputFiles :=
  if ofn = "" then none
  else some
    { cameraPath := encCamPath s.trajectory
      posesLines := s.trajectory.map encPose
      iterationLines := s.iterations.map encInt
      timeLines := s.time_ms.map encTime }

/-- The whole driver: main loop, then output stage (vo_perf.cc:46-150). -/
def voPerfMain {P : Type} (inp : RunInput P) (encCamPath : List P → String)
    (encPose : P → String) (encInt : ℤ → String) (encTime : ℚ → String)
    (ofn : String) : RunState P × Option OutputFiles :=
  (run inp, writeOutputs encCamPath encPose encInt encTime ofn (run inp))

/-- A concrete example result used by the witnesses: two pyramid levels,
five iterations at level 0 (equal to the example cap below), keyframe
kept. -/
def exResult : Result ℤ :=
  ⟨0, [⟨5, 0, false⟩, ⟨3, 0, true⟩], KeyframingReason.KeepOldKeyframe⟩

/-- A concrete example run input used by the witnesses: three frames, the
dataset never runs out, no display, every frame returns `exResult`, zero
frame times, level 0 inspected, iteration cap 5 — so every frame triggers
the max-iterations warning. -/
def exInp : RunInput ℤ :=
  { maxFrames := 3
    hasFrame := fun _ => true
    doShow := false
    quitAt := fun _ => false
    result := fun _ => exResult
    elapsed := fun _ => 0
    maxTestLevel := 0
    maxIterations := 5 }

theorem procCount_le {P : Type} (inp : RunInput P) (fuel : ℕ) :
    ∀ i : ℕ, procCount inp fuel i ≤ fuel := by
  induction fuel with
  | zero => intro i; simp [procCount]
  | succ fuel ih =>
      intro i
      by_cases h : stopsAt inp i
      · simp [procCount, h]
      · simpa [procCount, h] using ih (i + 1)

theorem procCount_not_stop {P : Type} (inp : RunInput P) (fuel : ℕ) :
    ∀ i j : ℕ, j < procCount inp fuel i → stopsAt inp (i + j) = false := by
  induction fuel with
  | zero => intro i j hj; simp [procCount] at hj
  | succ fuel ih =>
      intro i j hj
      by_cases h : stopsAt inp i
      · simp [procCount, h] at hj
      · rcases j with _ | j
        · simp only [Bool.not_eq_true] at h
          simp only [Nat.add_zero]
          exact h
        · have hj' : j < procCount inp fuel (i + 1) := by
            simp [procCount, h] at hj
            omega
          have := ih (i + 1) j hj'
          have harr : i + 1 + j = i + (j + 1) := by omega
          rw [harr] at this
          exact this

theorem procCount_stop {P : Type} (inp : RunInput P) (fuel : ℕ) :
    ∀ i : ℕ, procCount inp fuel i < fuel →
      stopsAt inp (i + procCount inp fuel i) = true := by
  induction fuel with
  | zero => intro i h; omega
  | succ fuel ih =>
      intro i h
      by_cases hs : stopsAt inp i
      · simp [procCount, hs]
      · have hlt : procCount inp fuel (i + 1) < fuel := by
          simp [procCount, hs] at h
          omega
        have := ih (i + 1) hlt
        have harr : i + (procCount inp fuel (i + 1) + 1)
            = i + 1 + procCount inp fuel (i + 1) := by omega
        simp [procCount, hs, harr]
        exact this

theorem go_trajectory {P : Type} (inp : RunInput P) (fuel : ℕ) :
    ∀ (i : ℕ) (s : RunState P),
      (go inp fuel i s).trajectory
        = s.trajectory
          ++ (List.range' i (procCount inp fuel i)).map (fun j => (inp.result j).pose) := by
  induction fuel with
  | zero => intro i s; simp [go, procCount]
  | succ fuel ih =>
      intro i s
      by_cases h : stopsAt inp i
      · simp [go, procCount, h]
      · rw [show go inp (fuel + 1) i s = go inp fuel (i + 1) (step inp i s) by
          simp [go, h]]
        rw [ih (i + 1) (step inp i s)]
        simp [step, procCount, h, List.range'_succ]

theorem go_iterations {P : Type} (inp : RunInput P) (fuel : ℕ) :
    ∀ (i : ℕ) (s : RunState P),
      (go inp fuel i s).iterations
        = s.iterations
          ++ (List.range' i (procCount inp fuel i)).map (numItersAt inp) := by
  induction fuel with
  | zero => intro i s; simp [go, procCount]
  | succ fuel ih =>
      intro i s
      by_cases h : stopsAt inp i
      · simp [go, procCount, h]
      · rw [show go inp (fuel + 1) i s = go inp fuel (i + 1) (step inp i s) by
          simp [go, h]]
        rw [ih (i + 1) (step inp i s)]
        simp [step, procCount, h, List.range'_succ]

theorem go_time_ms {P : Type} (inp : RunInput P) (fuel : ℕ) :
    ∀ (i : ℕ) (s : RunState P),
      (go inp fuel i s).time_ms
        = s.time_ms ++ (List.range' i (procCount inp fuel i)).map inp.elapsed := by
  induction fuel with
  | zero => intro i s; simp [go, procCount]
  | succ fuel ih =>
      intro i s
      by_cases h : stopsAt inp i
      · simp [go, procCount, h]
      · rw [show go inp (fuel + 1) i s = go inp fuel (i + 1) (step inp i s) by
          simp [go, h]]
        rw [ih (i + 1) (step inp i s)]
        simp [step, procCount, h, List.range'_succ]

theorem go_warnedFrames {P : Type} (inp : RunInput P) (fuel : ℕ) :
    ∀ (i : ℕ) (s : RunState P),
      (go inp fuel i s).warnedFrames
        = s.warnedFrames
          ++ (List.range' i (procCount inp fuel i)).filter
              (fun j => numItersAt inp j = inp.maxIterations) := by
  induction fuel with
  | zero => intro i s; simp [go, procCount]
  | succ fuel ih =>
      intro i s
      by_cases h : stopsAt inp i
      · simp [go, procCount, h]
      · rw [show go inp (fuel + 1) i s = go inp fuel (i + 1) (step inp i s) by
          simp [go, h]]
        rw [ih (i + 1) (step inp i s)]
        by_cases hw : numItersAt inp i = inp.maxIterations
        · simp [step, procCount, h, hw, List.range'_succ, List.filter_cons]
        · simp [step, procCount, h, hw, List.range'_succ, List.filter_cons]

theorem go_console {P : Type} (inp : RunInput P) (fuel : ℕ) :
    ∀ (i : ℕ) (s : RunState P),
      (go inp fuel i s).console
        = s.console
          ++ (List.range' i (procCount inp fuel i)).map (fun (j : ℕ) =>
              ((j : ℤ) - 1, inp.elapsed j,
               ((j : ℚ) - 1) / (s.totalTime + timeSum inp i (j + 1 - i)),
               numItersAt inp j, (inp.result j).keyFramingReason)) := by
  induction fuel with
  | zero => intro i s; simp [go, procCount]
  | succ fuel ih =>
      intro i s
      by_cases h : stopsAt inp i
      · simp [go, procCount, h]
      · rw [show go inp (fuel + 1) i s = go inp fuel (i + 1) (step inp i s) by
          simp [go, h]]
        rw [ih (i + 1) (step inp i s)]
        have hcount : procCount inp (fuel + 1) i = procCount inp fuel (i + 1) + 1 := by
          simp [procCount, h]
        rw [hcount, List.range'_succ, List.map_cons]
        have hstepT : (step inp i s).totalTime = s.totalTime + inp.elapsed i / 1000 := rfl
        have hstepC : (step inp i s).console
            = s.console ++ [((i : ℤ) - 1, inp.elapsed i,
                ((i : ℚ) - 1) / (s.totalTime + inp.elapsed i / 1000),
                numItersAt inp i, (inp.result i).keyFramingReason)] := rfl
        rw [hstepC, hstepT, List.append_assoc]
        congr 1
        have hhead : timeSum inp i (i + 1 - i) = inp.elapsed i / 1000 := by
          have : i + 1 - i = 1 := by omega
          rw [this, timeSum_succ, timeSum_zero, add_zero]
        rw [List.singleton_append, hhead]
        congr 1
        apply List.map_congr_left
        intro j hj
        have hij : i + 1 ≤ j := (List.mem_range'_1.mp hj).1
        have h1 : j + 1 - (i + 1) = j - i := by omega
        have h2 : j + 1 - i = (j - i) + 1 := by omega
        have h3 : j - i = (j - (i + 1)) + 1 := by omega
        rw [h1, h2, timeSum_succ]
        ring_nf

theorem go_totalTime {P : Type} (inp : RunInput P) (fuel : ℕ) :
    ∀ (i : ℕ) (s : RunState P),
      (go inp fuel i s).totalTime = s.totalTime + timeSum inp i (procCount inp fuel i) := by
  induction fuel with
  | zero => intro i s; simp [go, procCount, timeSum_zero]
  | succ fuel ih =>
      intro i s
      by_cases h : stopsAt inp i
      · simp [go, procCount, h, timeSum_zero]
      · rw [show go inp (fuel + 1) i s = go inp fuel (i + 1) (step inp i s) by
          simp [go, h]]
        rw [ih (i + 1) (step inp i s)]
        have hcount : procCount inp (fuel + 1) i = procCount inp fuel (i + 1) + 1 := by
          simp [procCount, h]
        rw [hcount, timeSum_succ]
        have hstepT : (step inp i s).totalTime = s.totalTime + inp.elapsed i / 1000 := rfl
        rw [hstepT]
        ring

theorem go_traj_extends {P : Type} (inp : RunInput P) (fuel i : ℕ) (s : RunState P) :
    s.trajectory <+: (go inp fuel i s).trajectory := by
  rw [go_trajectory]
  exact List.prefix_append _ _

theorem run_trajectory {P : Type} (inp : RunInput P) :
    (run inp).trajectory
      = (List.range' 0 (processed inp)).map (fun j => (inp.result j).pose) := by
  rw [run, go_trajectory]
  simp [initState, processed]

theorem run_iterations {P : Type} (inp : RunInput P) :
    (run inp).iterations
      = (List.range' 0 (processed inp)).map (numItersAt inp) := by
  rw [run, go_iterations]
  simp [initState, processed]

theorem run_time_ms {P : Type} (inp : RunInput P) :
    (run inp).time_ms = (List.range' 0 (processed inp)).map inp.elapsed := by
  rw [run, go_time_ms]
  simp [initState, processed]

theorem run_warnedFrames {P : Type} (inp : RunInput P) :
    (run inp).warnedFrames
      = (List.range' 0 (processed inp)).filter
          (fun j => numItersAt inp j = inp.maxIterations) := by
  rw [run, go_warnedFrames]
  simp [initState, processed]

theorem run_console {P : Type} (inp : RunInput P) :
    (run inp).console
      = (List.range' 0 (processed inp)).map (fun (j : ℕ) =>
          ((j : ℤ) - 1, inp.elapsed j, ((j : ℚ) - 1) / timeSum inp 0 (j + 1),
           numItersAt inp j, (inp.result j).keyFramingReason)) := by
  rw [run, go_console]
  simp [initState, processed]

theorem mem_warnedFrames_iff {P : Type} (inp : RunInput P) (i : ℕ) :
    i ∈ (run inp).warnedFrames
      ↔ i < processed inp ∧ numItersAt inp i = inp.maxIterations := by
  rw [run_warnedFrames, List.mem_filter]
  simp [List.mem_range'_1]

theorem range'_map_getElem? {α : Type} (f : ℕ → α) (n i : ℕ) (h : i < n) :
    ((List.range' 0 n).map f)[i]? = some (f i) := by
  rw [List.getElem?_map, List.getElem?_range' 0 1 h]
  simp

/-- C1: for every processed frame the max-iterations warning fires exactly
when the iteration count recorded for level `maxTestLevel` equals the
configured `maxIterations` (vo_perf.cc:97-101), and, for the spec-modelled
optimizer, a level whose recorded iteration count equals the cap has
`converged = false`. -/
theorem warning_iff_cap_at_maxTestLevel {P : Type} (inp : RunInput P) (i : ℕ)
    (m : ℕ) (crit : ℕ → Bool) (cost : ℚ)
    (hcap : (optimizeLevel m crit cost).numIterations = (m : ℤ)) :
    (i ∈ (run inp).warnedFrames
        ↔ i < processed inp ∧ numItersAt inp i = inp.maxIterations)
    ∧ (optimizeLevel m crit cost).converged = false := by
  refine ⟨mem_warnedFrames_iff inp i, ?_⟩
  cases hconv : (optIter crit m 0).2 with
  | false => simpa [optimizeLevel] using hconv
  | true =>
      have hlt := optIter_converged_lt crit m 0 hconv
      have hn : ((optIter crit m 0).1 : ℤ) = (m : ℤ) := by
        simpa [optimizeLevel] using hcap
      have : (optIter crit m 0).1 = m := by exact_mod_cast hn
      omega

/-- Witness for C1 at the example input and a one-iteration cap with a
criterion that never fires. -/
theorem warning_iff_cap_at_maxTestLevel_witness :
    (0 ∈ (run exInp).warnedFrames
        ↔ 0 < processed exInp ∧ numItersAt exInp 0 = exInp.maxIterations)
    ∧ (optimizeLevel 1 (fun _ => false) 0).converged = false :=
  warning_iff_cap_at_maxTestLevel exInp 0 1 (fun _ => false) 0 (by decide)

/-- C2: whenever the output stage writes files, the pose, iteration and time
listings have equal line counts, exactly one line per processed frame, and
for each i the i-th line of each listing encodes the i-th processed frame's
world pose, iteration count and processing time respectively
(vo_perf.cc:108-110, 122-147). -/
theorem output_listings_parallel {P : Type} (inp : RunInput P)
    (encCamPath : List P → String) (encPose : P → String)
    (encInt : ℤ → String) (encTime : ℚ → String) (ofn : String) (out : OutputFiles)
    (h : writeOutputs encCamPath encPose encInt encTime ofn (run inp) = some out) :
    out.posesLines.length = processed inp
    ∧ out.iterationLines.length = processed inp
    ∧ out.timeLines.length = processed inp
    ∧ ∀ i : ℕ, i < processed inp →
        out.posesLines[i]? = some (encPose ((inp.result i).pose))
        ∧ out.iterationLines[i]? = some (encInt (numItersAt inp i))
        ∧ out.timeLines[i]? = some (encTime (inp.elapsed i)) := by
  by_cases hofn : ofn = ""
  · simp [writeOutputs, hofn] at h
  · rw [writeOutputs, if_neg hofn, Option.some_inj] at h
    subst h
    refine ⟨?_, ?_, ?_, ?_⟩
    · simp [run_trajectory]
    · simp [run_iterations]
    · simp [run_time_ms]
    · intro i hi
      refine ⟨?_, ?_, ?_⟩
      · rw [show (run inp).trajectory.map encPose
            = (List.range' 0 (processed inp)).map
                (fun j => encPose ((inp.result j).pose)) by
          rw [run_trajectory, List.map_map]; rfl]
        exact range'_map_getElem? _ _ _ hi
      · rw [show (run inp).iterations.map encInt
            = (List.range' 0 (processed inp)).map
                (fun j => encInt (numItersAt inp j)) by
          rw [run_iterations, List.map_map]; rfl]
        exact range'_map_getElem? _ _ _ hi
      · rw [show (run inp).time_ms.map encTime
            = (List.range' 0 (processed inp)).map
                (fun j => encTime (inp.elapsed j)) by
          rw [run_time_ms, List.map_map]; rfl]
        exact range'_map_getElem? _ _ _ hi

/-- An example output prefix for the C2 witness. -/
def exOfn : String := "out"

/-- The files the example run writes under `exOfn`, with constant line
encoders. -/
def exOut : OutputFiles :=
  { cameraPath := "c"
    posesLines := ["p", "p", "p"]
    iterationLines := ["i", "i", "i"]
    timeLines := ["t", "t", "t"] }

/-- Witness for C2 at the example input with constant encoders. -/
theorem output_listings_parallel_witness :
    exOut.posesLines.length = processed exInp
    ∧ exOut.iterationLines.length = processed exInp
    ∧ exOut.timeLines.length = processed exInp
    ∧ ∀ i : ℕ, i < processed exInp →
        exOut.posesLines[i]? = some ((fun (_ : ℤ) => "p") ((exInp.result i).pose))
        ∧ exOut.iterationLines[i]? = some ((fun (_ : ℤ) => "i") (numItersAt exInp i))
        ∧ exOut.timeLines[i]? = some ((fun (_ : ℚ) => "t") (exInp.elapsed i)) :=
  output_listings_parallel exInp (fun _ => "c") (fun _ => "p") (fun _ => "i")
    (fun _ => "t") exOfn exOut (by decide)

/-- C3: the trajectory holds exactly one world pose per successful `addFrame`
call (length N after N calls), entry j being the pose returned for frame j;
each loop body appends exactly one pose, and across every tail of the loop
the trajectory already built is preserved unchanged as a prefix — nothing is
removed, reordered or retroactively mutated (vo_perf.cc:66, 108; spec §3
Trajectory). -/
theorem trajectory_append_only {P : Type} (inp : RunInput P) :
    (run inp).trajectory.length = processed inp
    ∧ (run inp).trajectory
        = (List.range' 0 (processed inp)).map (fun j => (inp.result j).pose)
    ∧ (∀ (i : ℕ) (s : RunState P),
        (step inp i s).trajectory = s.trajectory ++ [(inp.result i).pose])
    ∧ ∀ (fuel i : ℕ) (s : RunState P),
        s.trajectory <+: (go inp fuel i s).trajectory := by
  refine ⟨?_, run_trajectory inp, fun i s => rfl, fun fuel i s => go_traj_extends inp fuel i s⟩
  simp [run_trajectory]

/-- Witness for C3 at the example input. -/
theorem trajectory_append_only_witness :
    (run exInp).trajectory.length = processed exInp :=
  (trajectory_append_only exInp).1

/-- C4: a frame at which the max-iterations warning fires is processed like
any other: its pose is appended to the trajectory, its iteration count and
time are recorded, and the loop moves on to the next frame (which is again
processed unless the frame budget is exhausted, the dataset is empty, or the
user quits) rather than terminating (vo_perf.cc:97-111; spec §7). -/
theorem warning_does_not_abort {P : Type} (inp : RunInput P) (i : ℕ)
    (h : i ∈ (run inp).warnedFrames) :
    i < processed inp
    ∧ (run inp).trajectory[i]? = some ((inp.result i).pose)
    ∧ (run inp).iterations[i]? = some (numItersAt inp i)
    ∧ (run inp).time_ms[i]? = some (inp.elapsed i)
    ∧ (i + 1 < inp.maxFrames → inp.hasFrame (i + 1) = true →
        (inp.doShow && inp.quitAt (i + 1)) = false → i + 1 < processed inp) := by
  have hi : i < processed inp := ((mem_warnedFrames_iff inp i).mp h).1
  refine ⟨hi, ?_, ?_, ?_, ?_⟩
  · rw [run_trajectory]
    exact range'_map_getElem? _ _ _ hi
  · rw [run_iterations]
    exact range'_map_getElem? _ _ _ hi
  · rw [run_time_ms]
    exact range'_map_getElem? _ _ _ hi
  · intro hmax hframe hquit
    by_contra hnot
    have heq : processed inp = i + 1 := by omega
    have hlt2 : procCount inp inp.maxFrames 0 < inp.maxFrames := by
      have hx : processed inp < inp.maxFrames := by omega
      simpa [processed] using hx
    have hstop := procCount_stop inp inp.maxFrames 0 hlt2
    have hstop' : stopsAt inp (processed inp) = true := by
      simpa [processed] using hstop
    rw [heq] at hstop'
    simp [stopsAt, hframe, hquit] at hstop'

/-- Witness for C4: frame 0 of the example run warns, and the facts hold
there concretely. -/
theorem warning_does_not_abort_witness :
    0 < processed exInp
    ∧ (run exInp).trajectory[0]? = some ((exInp.result 0).pose)
    ∧ (run exInp).iterations[0]? = some (numItersAt exInp 0)
    ∧ (run exInp).time_ms[0]? = some (exInp.elapsed 0)
    ∧ (0 + 1 < exInp.maxFrames → exInp.hasFrame (0 + 1) = true →
        (exInp.doShow && exInp.quitAt (0 + 1)) = false → 0 + 1 < processed exInp) :=
  warning_does_not_abort exInp 0 (by decide)

/-- C5: the spec-modelled statistics assembly produces one entry per
configured pyramid level, and whenever every frame's Result carries
statistics of the configured level count and `maxTestLevel` is a valid level
index, the driver's unchecked read `optimizerStatistics[maxTestLevel]`
(vo_perf.cc:97) is in bounds for every frame, and the model's defaulted read
agrees with a genuine in-bounds access. -/
theorem stats_access_in_bounds {P : Type} (inp : RunInput P)
    (levels : ℕ) (statAt : ℕ → OptStats)
    (hlen : ∀ j : ℕ, (inp.result j).optimizerStatistics.length = levels)
    (hlevel : inp.maxTestLevel < levels) :
    (mkOptimizerStatistics levels statAt).length = levels
    ∧ ∀ j : ℕ, inp.maxTestLevel < (inp.result j).optimizerStatistics.length
        ∧ (inp.result j).optimizerStatistics[inp.maxTestLevel]?
            = some ((inp.result j).optimizerStatistics.getD inp.maxTestLevel default) := by
  refine ⟨by simp [mkOptimizerStatistics], fun j => ?_⟩
  have hb : inp.maxTestLevel < (inp.result j).optimizerStatistics.length := by
    rw [hlen j]
    exact hlevel
  refine ⟨hb, ?_⟩
  rw [List.getD_eq_getElem?_getD, List.getElem?_eq_getElem hb]
  rfl

/-- Witness for C5 at the example input, whose results all carry two levels
of statistics while level 0 is inspected. -/
theorem stats_access_in_bounds_witness :
    (mkOptimizerStatistics 2 (fun _ => default)).length = 2
    ∧ ∀ j : ℕ, exInp.maxTestLevel < (exInp.result j).optimizerStatistics.length
        ∧ (exInp.result j).optimizerStatistics[exInp.maxTestLevel]?
            = some ((exInp.result j).optimizerStatistics.getD exInp.maxTestLevel default) :=
  stats_access_in_bounds exInp 2 (fun _ => default) (fun _ => rfl) (by decide)

/-- C6: the warning condition reads only the statistics entry at level
`maxTestLevel`: membership in the warned set is equivalent to that single
entry's iteration count equalling the cap, and replacing every frame's
result by one with the same entry at `maxTestLevel` (but arbitrary other
levels, e.g. other levels at the cap) leaves the warned set unchanged
(vo_perf.cc:97-101). -/
theorem warning_inspects_only_maxTestLevel {P : Type} (inp : RunInput P) (i : ℕ)
    (result₂ : ℕ → Result P)
    (hsame : ∀ j : ℕ,
      (result₂ j).optimizerStatistics.getD inp.maxTestLevel default
        = (inp.result j).optimizerStatistics.getD inp.maxTestLevel default) :
    (i ∈ (run inp).warnedFrames
        ↔ i < processed inp ∧ numItersAt inp i = inp.maxIterations)
    ∧ (run { inp with result := result₂ }).warnedFrames = (run inp).warnedFrames := by
  refine ⟨mem_warnedFrames_iff inp i, ?_⟩
  have hstops : ∀ j : ℕ, stopsAt { inp with result := result₂ } j = stopsAt inp j :=
    fun j => rfl
  have hcount : ∀ fuel j : ℕ,
      procCount { inp with result := result₂ } fuel j = procCount inp fuel j := by
    intro fuel
    induction fuel with
    | zero => intro j; simp [procCount]
    | succ fuel ih =>
        intro j
        by_cases h : stopsAt inp j
        · simp [procCount, hstops, h]
        · simp [procCount, hstops, h, ih]
  have hiters : ∀ j : ℕ, numItersAt { inp with result := result₂ } j = numItersAt inp j := by
    intro j
    simp only [numItersAt]
    rw [hsame j]
  rw [run_warnedFrames, run_warnedFrames, processed, processed, hcount]
  apply List.filter_congr
  intro j _
  rw [hiters j]

/-- Witness for C6: replacing the example results by results whose level-1
statistics differ wildly (and also sit at the cap) does not change the
warned set. -/
theorem warning_inspects_only_maxTestLevel_witness :
    (0 ∈ (run exInp).warnedFrames
        ↔ 0 < processed exInp ∧ numItersAt exInp 0 = exInp.maxIterations)
    ∧ (run { exInp with result := fun _ =>
          ⟨7, [⟨5, 0, false⟩, ⟨5, 9, false⟩], KeyframingReason.MaxTranslation⟩ }).warnedFrames
        = (run exInp).warnedFrames :=
  warning_inspects_only_maxTestLevel exInp 0
    (fun _ => ⟨7, [⟨5, 0, false⟩, ⟨5, 9, false⟩], KeyframingReason.MaxTranslation⟩)
    (fun _ => rfl)

/-- C7: the spec-modelled Keyframe Selector yields exactly one reason of the
closed enumeration per frame (fixed priority order), and when that reason is
`KeepOldKeyframe` the active keyframe reference is unchanged by the update
(spec §4.3, §8 property 5). -/
theorem keyframing_reason_unique {K : Type}
    (c₁ c₂ c₃ c₄ : Bool) (current active : K)
    (hkeep : decideKeyframing c₁ c₂ c₃ c₄ = KeyframingReason.KeepOldKeyframe) :
    (∃! r : KeyframingReason, decideKeyframing c₁ c₂ c₃ c₄ = r)
    ∧ (decideKeyframing c₁ c₂ c₃ c₄ = KeyframingReason.KeepOldKeyframe
        ↔ c₁ = false ∧ c₂ = false ∧ c₃ = false ∧ c₄ = false)
    ∧ updateKeyframe current active (decideKeyframing c₁ c₂ c₃ c₄) = active := by
  refine ⟨⟨decideKeyframing c₁ c₂ c₃ c₄, rfl, fun r hr => hr.symm⟩, ?_, ?_⟩
  · cases c₁ <;> cases c₂ <;> cases c₃ <;> cases c₄ <;> simp_all [decideKeyframing]
  · rw [hkeep]
    simp [updateKeyframe]

/-- Witness for C7: with no keyframing condition firing, the decision is
`KeepOldKeyframe` and the active keyframe (here 10) survives the update. -/
theorem keyframing_reason_unique_witness :
    (∃! r : KeyframingReason, decideKeyframing false false false false = r)
    ∧ (decideKeyframing false false false false = KeyframingReason.KeepOldKeyframe
        ↔ false = false ∧ false = false ∧ false = false ∧ false = false)
    ∧ updateKeyframe (3 : ℤ) 10 (decideKeyframing false false false false) = 10 :=
  keyframing_reason_unique false false false false (3 : ℤ) 10 (by decide)

/-- C8: the driver writes result files exactly when the output prefix is
non-empty (vo_perf.cc:116) — with the empty default it writes none — and the
per-frame processing (the main-loop state) is the same for any two output
prefixes (vo_perf.cc:51, 116-148). -/
theorem empty_output_prefix_writes_nothing {P : Type} (inp : RunInput P)
    (encCamPath : List P → String) (encPose : P → String)
    (encInt : ℤ → String) (encTime : ℚ → String) (ofn ofn₁ ofn₂ : String) :
    ((voPerfMain inp encCamPath encPose encInt encTime ofn).2 = none ↔ ofn = "")
    ∧ (voPerfMain inp encCamPath encPose encInt encTime ofn₁).1
        = (voPerfMain inp encCamPath encPose encInt encTime ofn₂).1 := by
  constructor
  · by_cases h : ofn = "" <;> simp [voPerfMain, writeOutputs, h]
  · rfl

/-- Witness for C8 at the example input, comparing the empty prefix with
`exOfn`. -/
theorem empty_output_prefix_writes_nothing_witness :
    ((voPerfMain exInp (fun _ => "c") (fun _ => "p") (fun _ => "i")
        (fun _ => "t") "").2 = none ↔ ("" : String) = "")
    ∧ (voPerfMain exInp (fun _ => "c") (fun _ => "p") (fun _ => "i")
        (fun _ => "t") "").1
      = (voPerfMain exInp (fun _ => "c") (fun _ => "p") (fun _ => "i")
        (fun _ => "t") exOfn).1 :=
  empty_output_prefix_writes_nothing exInp (fun _ => "c") (fun _ => "p")
    (fun _ => "i") (fun _ => "t") "" "" exOfn

/-- C9: the main loop executes at most `maxFrames` body iterations (the
`numframes` option, default 1000), so at most `maxFrames` frames are
processed and each recorded sequence has at most `maxFrames` entries; every
processed frame had data and was not quit upon, and an early stop happens
exactly at a frame with no data or a quit (vo_perf.cc:52, 77-111). -/
theorem loop_bounded_by_numframes {P : Type} (inp : RunInput P) :
    defaultNumFrames = 1000
    ∧ processed inp ≤ inp.maxFrames
    ∧ (run inp).trajectory.length ≤ inp.maxFrames
    ∧ (run inp).iterations.length ≤ inp.maxFrames
    ∧ (run inp).time_ms.length ≤ inp.maxFrames
    ∧ (∀ j : ℕ, j < processed inp →
        inp.hasFrame j = true ∧ (inp.doShow && inp.quitAt j) = false)
    ∧ (processed inp < inp.maxFrames → stopsAt inp (processed inp) = true) := by
  have hle : processed inp ≤ inp.maxFrames := procCount_le inp inp.maxFrames 0
  refine ⟨rfl, hle, ?_, ?_, ?_, ?_, ?_⟩
  · rw [run_trajectory]
    simpa using hle
  · rw [run_iterations]
    simpa using hle
  · rw [run_time_ms]
    simpa using hle
  · intro j hj
    have := procCount_not_stop inp inp.maxFrames 0 j hj
    simp only [Nat.zero_add] at this
    simp only [stopsAt, Bool.or_eq_false_iff, Bool.not_eq_false'] at this
    exact this
  · intro hlt
    have := procCount_stop inp inp.maxFrames 0 hlt
    simpa using this

/-- Witness for C9 at the example input. -/
theorem loop_bounded_by_numframes_witness :
    defaultNumFrames = 1000 ∧ processed exInp ≤ exInp.maxFrames :=
  ⟨(loop_bounded_by_numframes exInp).1, (loop_bounded_by_numframes exInp).2.1⟩

/-- C10: each progress line printed for frame j labels it with index j - 1
(so a run's first processed frame is shown as frame -1) and shows the rate
(j - 1) divided by the accumulated time, while the recorded trajectory,
iteration and time sequences are indexed without the offset
(vo_perf.cc:103-106). -/
theorem console_displays_offset_index {P : Type} (inp : RunInput P)
    (h : 0 < processed inp) :
    (run inp).console
      = (List.range' 0 (processed inp)).map (fun (j : ℕ) =>
          ((j : ℤ) - 1, inp.elapsed j, ((j : ℚ) - 1) / timeSum inp 0 (j + 1),
           numItersAt inp j, (inp.result j).keyFramingReason))
    ∧ (run inp).console[0]?
        = some ((-1 : ℤ), inp.elapsed 0, (-1 : ℚ) / timeSum inp 0 1,
            numItersAt inp 0, (inp.result 0).keyFramingReason)
    ∧ (run inp).trajectory
        = (List.range' 0 (processed inp)).map (fun j => (inp.result j).pose)
    ∧ (run inp).iterations = (List.range' 0 (processed inp)).map (numItersAt inp)
    ∧ (run inp).time_ms = (List.range' 0 (processed inp)).map inp.elapsed := by
  refine ⟨run_console inp, ?_, run_trajectory inp, run_iterations inp, run_time_ms inp⟩
  rw [run_console]
  rw [range'_map_getElem? _ _ _ h]
  norm_num

/-- Witness for C10 at the example input, whose first console line shows
frame index -1. -/
theorem console_displays_offset_index_witness :
    (run exInp).console
      = (List.range' 0 (processed exInp)).map (fun (j : ℕ) =>
          ((j : ℤ) - 1, exInp.elapsed j, ((j : ℚ) - 1) / timeSum exInp 0 (j + 1),
           numItersAt exInp j, (exInp.result j).keyFramingReason))
    ∧ (run exInp).console[0]?
        = some ((-1 : ℤ), exInp.elapsed 0, (-1 : ℚ) / timeSum exInp 0 1,
            numItersAt exInp 0, (exInp.result 0).keyFramingReason)
    ∧ (run exInp).trajectory
        = (List.range' 0 (processed exInp)).map (fun j => (exInp.result j).pose)
    ∧ (run exInp).iterations = (List.range' 0 (processed exInp)).map (numItersAt exInp)
    ∧ (run exInp).time_ms = (List.range' 0 (processed exInp)).map exInp.elapsed :=
  console_displays_offset_index exInp (by decide)

end VoPerf
